import Mathlib

/-! Reader state of `src/js/reader.js`

A shallow embedding of the e-book reader script: the `ReaderState` singleton with
its `save`/`load` persistence, chapter navigation, progress tracking, font-size
control, bookmarks and highlights.  The script mutates one global object and the
page; here every handler is a pure function on a `Page` record that holds the
state object, the `localStorage` slot and the parts of the page the script reads
or writes.

Modelling conventions.
* JavaScript strings that are only compared (`chapter` ids, titles, dates, colours)
  are `String`.  The selected text of a highlight is a `JsText`, a list of UTF-16
  code units, because `length` and `substring` count code units.
* JavaScript numbers are exact rationals, with `NaN` kept apart where the script
  can produce it (`0 / 0` in the scroll handler).  `Math.round x` is `⌊x + 1/2⌋`.
* `new Date().toLocaleDateString()` is an input `today` of the handler that calls it.
* `JSON.parse (JSON.stringify v)` is the identity on booleans, finite numbers,
  strings, arrays and objects, and sends `NaN` to `null`.
* The sidebar, the theme toggle, the selection tooltip, the keyboard shortcuts and
  the list markup of bookmarks and highlights do not touch the fields studied here
  and are left out.
-/

namespace ReaderJs

/-! ## Data model -/

/-- A string whose `length` and `substring` are used: its UTF-16 code units. -/
abbrev JsText := List Nat

/-- The entries pushed by `addBookmark` (reader.js 213-217). -/
structure Bookmark where
  chapter : String
  title : String
  date : String
  deriving DecidableEq, Repr

/-- The record built by `highlightSelection` (reader.js 307-313). -/
structure Highlight where
  chapter : String
  text : JsText
  fullText : JsText
  color : String
  date : String
  deriving DecidableEq, Repr

/-- The values found in `ReaderState.progress`: the read flag `true` written by
`updateProgress`, the number written by the scroll handler (possibly `NaN`), and
`null`, which is what `NaN` becomes in a stored snapshot. -/
inductive JsVal where
  | bool (b : Bool)
  | num (q : ℚ)
  | nan
  | null
  deriving DecidableEq, Repr

/-- JavaScript truthiness, as used by the `filter` callback of `updateProgress`. -/
def JsVal.truthy : JsVal → Bool
  | .bool b => b
  | .num q => decide (q ≠ 0)
  | .nan => false
  | .null => false

/-- The value read back after `JSON.stringify` and `JSON.parse`. -/
def JsVal.toJSON : JsVal → JsVal
  | .nan => .null
  | v => v

/-- The `progress` object: its own properties in the order of `Object.keys`. -/
abbrev ProgressMap := List (String × JsVal)

/-- The value of the own property `key` of the progress object (`none` when there is
no own property of that name).  This is `progress[key]` for every key that
`Object.keys` lists, the only keys the script reads. -/
def ProgressMap.get (m : ProgressMap) (key : String) : Option JsVal :=
  (m.find? (fun kv => kv.1 == key)).map Prod.snd

/-- The array index that a property key denotes, if any: a decimal numeral without
a leading zero, at most `2^32 - 2`.  `Object.keys` lists such keys first, in
ascending numeric order, before the other keys in insertion order. -/
def arrayIndex (key : String) : Option Nat :=
  match key.data with
  | [] => none
  | c :: cs =>
    if (c :: cs).all (fun d => decide (48 ≤ d.toNat ∧ d.toNat ≤ 57)) then
      if c.toNat = 48 ∧ cs ≠ [] then none
      else
        let n := (c :: cs).foldl (fun acc d => acc * 10 + (d.toNat - 48)) 0
        if n ≤ 4294967294 then some n else none
    else none

/-- Assignment to an existing own property: the value changes, the place in the key
order does not. -/
def ProgressMap.assign : ProgressMap → String → JsVal → ProgressMap
  | [], _, _ => []
  | (k, w) :: rest, key, v =>
    if k == key then (k, v) :: rest else (k, w) :: ProgressMap.assign rest key v

/-- Creation of an own property whose key is the array index `n`: it is listed after
the array indices below `n`. -/
def ProgressMap.insertIndex (n : Nat) (key : String) (v : JsVal) : ProgressMap → ProgressMap
  | [] => [(key, v)]
  | (k, w) :: rest =>
    match arrayIndex k with
    | some j =>
      if j < n then (k, w) :: ProgressMap.insertIndex n key v rest
      else (key, v) :: (k, w) :: rest
    | none => (key, v) :: (k, w) :: rest

/-- Creation of an own property: an array index goes to its place among the array
indices, any other key is added last. -/
def ProgressMap.define (m : ProgressMap) (key : String) (v : JsVal) : ProgressMap :=
  match arrayIndex key with
  | some n => ProgressMap.insertIndex n key v m
  | none => m ++ [(key, v)]

/-- Property write `progress[key] = v`, for the values the script writes (`true` and
numbers).  An existing own property is assigned.  Without one, the key `__proto__`
reaches the setter inherited from `Object.prototype`, which ignores a value that is
not an object, so the object is left as it is; any other key creates an own
property. -/
def ProgressMap.set (m : ProgressMap) (key : String) (v : JsVal) : ProgressMap :=
  if (m.get key).isSome then m.assign key v
  else if key = "__proto__" then m
  else m.define key v

/-- `Object.keys(progress)`. -/
def ProgressMap.keys (m : ProgressMap) : List String := m.map Prod.fst

/-- The six data fields of the `ReaderState` object, with their initial values
(reader.js 2-8). -/
structure ReaderState where
  currentChapter : String := "intro"
  fontSize : Int := 18
  theme : String := "light"
  bookmarks : List Bookmark := []
  highlights : List Highlight := []
  progress : ProgressMap := []
  deriving DecidableEq, Repr

/-- The parsed content of the `readerState` slot of `localStorage`: a JSON object
holding any subset of the six fields. -/
structure Snapshot where
  currentChapter : Option String := none
  fontSize : Option Int := none
  theme : Option String := none
  bookmarks : Option (List Bookmark) := none
  highlights : Option (List Highlight) := none
  progress : Option ProgressMap := none
  deriving DecidableEq, Repr

/-- `ReaderState.save` (reader.js 10-19): the object that `JSON.parse` gives back
from the string written to storage. -/
def ReaderState.save (st : ReaderState) : Snapshot :=
  { currentChapter := some st.currentChapter
    fontSize := some st.fontSize
    theme := some st.theme
    bookmarks := some st.bookmarks
    highlights := some st.highlights
    progress := some (st.progress.map (fun kv => (kv.1, kv.2.toJSON))) }

/-- `ReaderState.load` (reader.js 21-27): `Object.assign(this, data)` when the slot
holds a snapshot, nothing otherwise. -/
def ReaderState.load (st : ReaderState) (saved : Option Snapshot) : ReaderState :=
  match saved with
  | none => st
  | some data =>
    { currentChapter := data.currentChapter.getD st.currentChapter
      fontSize := data.fontSize.getD st.fontSize
      theme := data.theme.getD st.theme
      bookmarks := data.bookmarks.getD st.bookmarks
      highlights := data.highlights.getD st.highlights
      progress := data.progress.getD st.progress }

/-! ## The page -/

/-- An element of the document, as far as the script looks at it. -/
structure Element where
  /-- The `id` attribute, `""` when there is none. -/
  id : String
  /-- Whether the element matched `.chapter` when `elements.chapters` was collected. -/
  isChapter : Bool
  /-- Whether `classList` contains `active`. -/
  active : Bool
  /-- The `textContent` of the first `h1` inside the element, if there is one. -/
  h1 : Option String
  deriving DecidableEq, Repr

/-- An entry of the table of contents (`.toc-item`). -/
structure TocItem where
  /-- The attribute `data-chapter`, if present. -/
  chapter : Option String
  active : Bool
  deriving DecidableEq, Repr

/-- `document.getElementById`: the first element with that id; the empty id
matches nothing. -/
def getElementById (dom : List Element) (id : String) : Option Element :=
  if id = "" then none else dom.find? (fun e => e.id == id)

/-- The state object together with the storage slot and the page. -/
structure Page where
  state : ReaderState := {}
  /-- The slot `readerState` of `localStorage`. -/
  storage : Option Snapshot := none
  dom : List Element := []
  tocItems : List TocItem := []
  /-- The text of `.current-chapter`. -/
  currentChapterLabel : String := ""
  /-- The `disabled` property of `#prevChapter`. -/
  prevDisabled : Bool := false
  /-- The `disabled` property of `#nextChapter`. -/
  nextDisabled : Bool := false
  /-- The number shown in `#progressFill` (`style.width`, in percent). -/
  progressFill : Nat := 0
  /-- The number shown in `#progressPercent` (followed by `%`). -/
  progressPercent : Nat := 0
  /-- Whether `#bookmarkBtn` carries the class `active`. -/
  bookmarkBtnActive : Bool := false
  /-- The variable `selectedRange`, by the text of the range. -/
  selectedRange : Option JsText := none
  /-- The style variable `--font-size-base`, in pixels. -/
  fontSizeBase : Int := 18
  deriving DecidableEq, Repr

/-- The call `ReaderState.save()` inside a handler. -/
def Page.saved (w : Page) : Page :=
  { w with storage := some w.state.save }

/-! ## Chapter navigation -/

/-- The constant `chapterOrder` (reader.js 53). -/
def chapterOrder : List String :=
  ["intro", "ch1", "ch2", "ch3", "ch4", "ch5", "ch6", "ch7", "ch8", "ch9", "ch10",
   "ch11", "ch12"]

/-- `Array.prototype.indexOf`: the first index, `-1` when absent. -/
def jsIndexOf (xs : List String) (x : String) : Int :=
  if x ∈ xs then (xs.indexOf x : Int) else -1

/-- `updateNavButtons` (reader.js 109-113). -/
def updateNavButtons (w : Page) : Page :=
  let currentIndex := jsIndexOf chapterOrder w.state.currentChapter
  { w with
    prevDisabled := decide (currentIndex ≤ 0)
    nextDisabled := decide (currentIndex ≥ (chapterOrder.length : Int) - 1) }

/-- `Math.round((readChapters / totalChapters) * 100)` for natural numbers:
`⌊100 r / t + 1/2⌋ = ⌊(200 r + t) / (2 t)⌋`. -/
def percentOf (readChapters totalChapters : Nat) : Nat :=
  (200 * readChapters + totalChapters) / (2 * totalChapters)

/-- The count `Object.keys(progress).filter(ch => progress[ch]).length`
(reader.js 153). -/
def readChapters (m : ProgressMap) : Nat :=
  (m.keys.filter (fun ch => match m.get ch with
    | some v => v.truthy
    | none => false)).length

/-- `updateProgress` (reader.js 144-158). -/
def updateProgress (w : Page) : Page :=
  let totalChapters := chapterOrder.length
  let w1 : Page :=
    { w with state := { w.state with
        progress := w.state.progress.set w.state.currentChapter (.bool true) } }
  let w2 := w1.saved
  let percent := percentOf (readChapters w2.state.progress) totalChapters
  { w2 with progressFill := percent, progressPercent := percent }

/-- The statement `chapter.classList.add('active')` on the element found by id. -/
def activate : List Element → String → List Element
  | [], _ => []
  | e :: rest, id =>
    if e.id == id then { e with active := true } :: rest else e :: activate rest id

/-- The loop `elements.chapters.forEach(ch => ch.classList.remove('active'))`
(reader.js 77). -/
def hideChapters (dom : List Element) : List Element :=
  dom.map (fun ch => if ch.isChapter then { ch with active := false } else ch)

/-- `showChapter` (reader.js 75-107).  Scrolling the window to the top and the
empty `applyHighlights` leave the record as it is. -/
def showChapter (w : Page) (chapterId : String) : Page :=
  let hidden := hideChapters w.dom
  match getElementById hidden chapterId with
  | none => { w with dom := hidden }
  | some chapter =>
    let w1 : Page :=
      { w with
        dom := activate hidden chapterId
        state := { w.state with currentChapter := chapterId } }
    let w2 := w1.saved
    let chapterTitle := match chapter.h1 with
      | some t => if t = "" then "Introduction" else t
      | none => "Introduction"
    let w3 : Page :=
      { w2 with
        tocItems := w2.tocItems.map
          (fun item => { item with active := decide (item.chapter = some chapterId) })
        currentChapterLabel := chapterTitle }
    updateProgress (updateNavButtons w3)

/-- The click handler of `prevBtn` (reader.js 115-120). -/
def prevBtnClick (w : Page) : Page :=
  let currentIndex := jsIndexOf chapterOrder w.state.currentChapter
  if currentIndex > 0 then
    match chapterOrder[(currentIndex - 1).toNat]? with
    | some id => showChapter w id
    | none => w
  else w

/-- The click handler of `nextBtn` (reader.js 122-127). -/
def nextBtnClick (w : Page) : Page :=
  let currentIndex := jsIndexOf chapterOrder w.state.currentChapter
  if currentIndex < (chapterOrder.length : Int) - 1 then
    match chapterOrder[(currentIndex + 1).toNat]? with
    | some id => showChapter w id
    | none => w
  else w

/-! ## Scroll depth -/

/-- The number `Math.min(100, Math.max(0, (scrolled / total) * 100))`
(reader.js 170).  With `total = 0` the quotient is `NaN` for `scrolled = 0`, which
both `Math.max` and `Math.min` return unchanged, and an infinity otherwise, which
the clamp sends to `100` or `0`. -/
def chapterProgress (scrolled total : ℚ) : JsVal :=
  if total = 0 then
    if scrolled = 0 then .nan else if 0 < scrolled then .num 100 else .num 0
  else .num (min 100 (max 0 ((scrolled / total) * 100)))

/-- The body of the debounced scroll callback (reader.js 165-175); `top` is
`chapter.getBoundingClientRect().top`. -/
def scrollHandler (w : Page) (top offsetHeight innerHeight : ℚ) : Page :=
  match getElementById w.dom w.state.currentChapter with
  | none => w
  | some _ =>
    let scrolled := -top
    let total := offsetHeight - innerHeight
    let w1 : Page :=
      { w with state := { w.state with
          progress := w.state.progress.set (w.state.currentChapter ++ "_scroll")
            (chapterProgress scrolled total) } }
    w1.saved

/-! ## Font size -/

/-- `adjustFontSize` (reader.js 180-184). -/
def adjustFontSize (w : Page) (delta : Int) : Page :=
  let fontSize := max 14 (min 24 (w.state.fontSize + delta))
  let w1 : Page :=
    { w with state := { w.state with fontSize := fontSize }, fontSizeBase := fontSize }
  w1.saved

/-! ## Bookmarks and highlights -/

/-- `Array.prototype.findIndex` with the test `b.chapter === chapterId`. -/
def findIndex (bs : List Bookmark) (chapterId : String) : Int :=
  match bs.findIdx? (fun b => b.chapter == chapterId) with
  | some i => (i : Int)
  | none => -1

/-- The last statements of `renderBookmarks` (reader.js 245-246); the list markup
above them is a function of `bookmarks` and is not kept. -/
def renderBookmarks (w : Page) : Page :=
  { w with bookmarkBtnActive :=
      w.state.bookmarks.any (fun b => b.chapter == w.state.currentChapter) }

/-- The constant `title` of `addBookmark` (reader.js 201-202):
`chapter?.querySelector('h1')?.textContent || 'Unknown'`. -/
def bookmarkTitle (w : Page) : String :=
  match (getElementById w.dom w.state.currentChapter).bind Element.h1 with
  | some t => if t = "" then "Unknown" else t
  | none => "Unknown"

/-- `addBookmark` (reader.js 199-223). -/
def addBookmark (w : Page) (today : String) : Page :=
  let chapterId := w.state.currentChapter
  let title := bookmarkTitle w
  let existingIndex := findIndex w.state.bookmarks chapterId
  let w1 : Page :=
    if existingIndex ≥ 0 then
      { w with
        state := { w.state with bookmarks := w.state.bookmarks.eraseIdx existingIndex.toNat }
        bookmarkBtnActive := false }
    else
      { w with
        state := { w.state with
          bookmarks := w.state.bookmarks ++ [{ chapter := chapterId, title := title, date := today }] }
        bookmarkBtnActive := true }
  renderBookmarks w1.saved

/-- The three code units of `'...'`. -/
def ellipsis : JsText := [46, 46, 46]

/-- `highlightSelection` (reader.js 298-327).  The replacement of the selected
range by a `span` and the list markup of `renderHighlights` are not kept. -/
def highlightSelection (w : Page) (color : String) (today : String) : Page :=
  match w.selectedRange with
  | none => w
  | some text =>
    let highlight : Highlight :=
      { chapter := w.state.currentChapter
        text := text.take 50 ++ (if text.length > 50 then ellipsis else [])
        fullText := text
        color := color
        date := today }
    let w1 : Page :=
      { w with state := { w.state with highlights := w.state.highlights ++ [highlight] } }
    w1.saved

/-! ## Runs of handlers -/

/-- The events that reach the handlers above. -/
inductive Event where
  | showChapter (chapterId : String)
  | scroll (top offsetHeight innerHeight : ℚ)
  | addBookmark (today : String)
  | prevClick
  | nextClick
  | adjustFontSize (delta : Int)
  | highlight (color : String) (today : String)
  deriving Repr

/-- One handler call. -/
def step (w : Page) : Event → Page
  | .showChapter chapterId => showChapter w chapterId
  | .scroll top offsetHeight innerHeight => scrollHandler w top offsetHeight innerHeight
  | .addBookmark today => addBookmark w today
  | .prevClick => prevBtnClick w
  | .nextClick => nextBtnClick w
  | .adjustFontSize delta => adjustFontSize w delta
  | .highlight color today => highlightSelection w color today

/-- The reader after a sequence of events. -/
def run (w : Page) (evs : List Event) : Page := evs.foldl step w

/-- The percents computed along a run, one for each `updateProgress` call made by a
`showChapter` event (the call happens when the chapter is found). -/
def percentTrace (w : Page) : List Event → List Nat
  | [] => []
  | .showChapter chapterId :: evs =>
    let w1 := showChapter w chapterId
    (if (getElementById w.dom chapterId).isSome then [w1.progressPercent] else [])
      ++ percentTrace w1 evs
  | ev :: evs => percentTrace (step w ev) evs

/-! ## Notions used by the specification -/

/-- The read count of the specification: the entries of the progress map whose
read flag is `true`. -/
def readFlagCount (m : ProgressMap) : Nat :=
  (m.filter (fun kv => decide (kv.2 = JsVal.bool true))).length

/-- The bookmark invariant of the specification: no two bookmarks share `chapter`. -/
def oneBookmarkPerChapter (bs : List Bookmark) : Prop :=
  (bs.map Bookmark.chapter).Nodup

instance (bs : List Bookmark) : Decidable (oneBookmarkPerChapter bs) := by
  unfold oneBookmarkPerChapter; infer_instance

/-- The ids of the `.chapter` elements that carry the `active` marker. -/
def activeChapters (dom : List Element) : List String :=
  (dom.filter (fun e => e.isChapter && e.active)).map Element.id

/-! ## Sample pages -/

/-- A page with one `.chapter` element for each id of `chapterOrder` and an
`appendix` outside `chapterOrder`, showing `intro`, in the initial reader state. -/
def samplePage : Page :=
  { dom :=
      chapterOrder.map (fun c => ⟨c, true, c == "intro", some c⟩)
        ++ [⟨"appendix", true, false, some "Appendix"⟩] }

/-- A page whose document holds a chapter element with the id `__proto__`, in the
initial reader state. -/
def protoPage : Page :=
  { dom :=
      [⟨"intro", true, true, some "Introduction"⟩,
       ⟨"__proto__", true, false, some "Prototype"⟩] }

/-- The sample page after the reader has opened the appendix. -/
def appendixPage : Page := showChapter samplePage "appendix"

/-- A page whose selection is sixty code units long, on chapter `ch2`. -/
def selectionPage : Page :=
  { (showChapter samplePage "ch2") with selectedRange := some (List.replicate 60 97) }

/-- A page with bookmarks on `ch1` and `ch2`, showing `ch1`. -/
def bookmarkedPage : Page :=
  run samplePage
    [.showChapter "ch1", .addBookmark "1/2/2025", .showChapter "ch2", .addBookmark "1/2/2025",
     .showChapter "ch1"]

/-- The sample page after a scroll event that finds the chapter exactly as tall as
the window and at its top: `scrolled` and `total` are both zero. -/
def stalledPage : Page := scrollHandler samplePage 0 600 600

/-- The sample page after opening `intro` and scrolling half way down: 300 pixels
of the 600 that a chapter of height 1200 leaves below a window of height 600. -/
def scrolledPage : Page :=
  run samplePage [.showChapter "intro", .scroll (-300) 1200 600]

/-- Opening `intro`, scrolling half way down, opening it again, scrolling back to the
top and opening it once more. -/
def scrollBackEvents : List Event :=
  [.showChapter "intro", .scroll (-300) 1200 600, .showChapter "intro",
   .scroll 0 1200 600, .showChapter "intro"]

/-! ## Arithmetic of the percent -/

/-- The integer formula of `percentOf` is `Math.round` of the quotient times 100. -/
theorem percentOf_eq_round (r t : Nat) (ht : 0 < t) :
    ((percentOf r t : Nat) : ℤ) = ⌊(r : ℚ) / t * 100 + 1 / 2⌋ := by
  have ht' : (0 : ℚ) < 2 * t := by positivity
  have h : (r : ℚ) / t * 100 + 1 / 2 = ((200 * r + t : ℕ) : ℚ) / ((2 * t : ℕ) : ℚ) := by
    push_cast
    field_simp
    ring
  rw [h, Rat.floor_natCast_div_natCast]
  rfl

theorem percentOf_mono (t : Nat) {r s : Nat} (h : r ≤ s) : percentOf r t ≤ percentOf s t := by
  unfold percentOf
  apply Nat.div_le_div_right
  omega

/-! ## The progress map -/

theorem get_assign_self (m : ProgressMap) (k : String) (v : JsVal)
    (h : (m.get k).isSome = true) : (m.assign k v).get k = some v := by
  induction m with
  | nil => simp [ProgressMap.get] at h
  | cons kv rest ih =>
    obtain ⟨k', w⟩ := kv
    by_cases hk : k' = k
    · simp [ProgressMap.assign, ProgressMap.get, hk]
    · have hb : (k' == k) = false := beq_false_of_ne hk
      have h' : (ProgressMap.get rest k).isSome = true := by
        simpa [ProgressMap.get, List.find?_cons, hb] using h
      simpa [ProgressMap.assign, ProgressMap.get, List.find?_cons, hb] using ih h'

theorem get_assign_other (m : ProgressMap) (k : String) (v : JsVal) (j : String)
    (h : j ≠ k) : (m.assign k v).get j = m.get j := by
  induction m with
  | nil => rfl
  | cons kv rest ih =>
    obtain ⟨k', w⟩ := kv
    by_cases hk : k' = k
    · subst hk
      simp [ProgressMap.assign, ProgressMap.get, Ne.symm h]
    · have hb : (k' == k) = false := beq_false_of_ne hk
      by_cases hj : k' = j
      · subst hj
        simp [ProgressMap.assign, ProgressMap.get, hb]
      · have hbj : (k' == j) = false := beq_false_of_ne hj
        simpa [ProgressMap.assign, ProgressMap.get, List.find?_cons, hb, hbj] using ih

theorem insertIndex_perm (n : Nat) (k : String) (v : JsVal) (m : ProgressMap) :
    (ProgressMap.insertIndex n k v m).Perm ((k, v) :: m) := by
  induction m with
  | nil => exact List.Perm.refl _
  | cons kv rest ih =>
    obtain ⟨k', w⟩ := kv
    unfold ProgressMap.insertIndex
    cases hidx : arrayIndex k' with
    | none => exact List.Perm.refl _
    | some j =>
      by_cases hj : j < n
      · simp only [hj, if_true]
        exact (List.Perm.cons _ ih).trans (List.Perm.swap _ _ _)
      · simp only [hj, if_false]
        exact List.Perm.refl _

theorem get_insertIndex_self (n : Nat) (k : String) (v : JsVal) (m : ProgressMap)
    (hn : arrayIndex k = some n) : (ProgressMap.insertIndex n k v m).get k = some v := by
  induction m with
  | nil => simp [ProgressMap.insertIndex, ProgressMap.get]
  | cons kv rest ih =>
    obtain ⟨k', w⟩ := kv
    unfold ProgressMap.insertIndex
    cases hidx : arrayIndex k' with
    | none => simp [ProgressMap.get]
    | some j =>
      by_cases hj : j < n
      · have hk : k' ≠ k := by
          intro hkk
          rw [hkk, hn] at hidx
          have : n = j := Option.some.inj hidx
          omega
        have hb : (k' == k) = false := beq_false_of_ne hk
        simpa [hj, ProgressMap.get, List.find?_cons, hb] using ih
      · simp [hj, ProgressMap.get]

theorem get_insertIndex_other (n : Nat) (k : String) (v : JsVal) (m : ProgressMap)
    (j : String) (h : j ≠ k) : (ProgressMap.insertIndex n k v m).get j = m.get j := by
  have hb : (k == j) = false := beq_false_of_ne (Ne.symm h)
  induction m with
  | nil => simp [ProgressMap.insertIndex, ProgressMap.get, List.find?_cons, hb]
  | cons kv rest ih =>
    obtain ⟨k', w⟩ := kv
    unfold ProgressMap.insertIndex
    cases hidx : arrayIndex k' with
    | none => simp [ProgressMap.get, List.find?_cons, hb]
    | some i =>
      by_cases hi : i < n
      · by_cases hj : k' = j
        · simp [hi, ProgressMap.get, List.find?_cons, hj]
        · have hbj : (k' == j) = false := beq_false_of_ne hj
          simpa [hi, ProgressMap.get, List.find?_cons, hbj] using ih
      · simp [hi, ProgressMap.get, List.find?_cons, hb]

theorem get_define_self (m : ProgressMap) (k : String) (v : JsVal)
    (h : (m.get k).isSome = false) : (m.define k v).get k = some v := by
  unfold ProgressMap.define
  cases hidx : arrayIndex k with
  | some n => exact get_insertIndex_self n k v m hidx
  | none =>
    have hnone : m.find? (fun kv => kv.1 == k) = none := by
      simpa [ProgressMap.get] using h
    simp [ProgressMap.get, List.find?_append, hnone]

theorem get_define_other (m : ProgressMap) (k : String) (v : JsVal) (j : String)
    (h : j ≠ k) : (m.define k v).get j = m.get j := by
  unfold ProgressMap.define
  cases hidx : arrayIndex k with
  | some n => exact get_insertIndex_other n k v m j h
  | none =>
    have hb : (k == j) = false := beq_false_of_ne (Ne.symm h)
    simp [ProgressMap.get, List.find?_append, List.find?_cons, hb]

/-- A write is read back, except for `__proto__` on an object without an own
property of that name. -/
theorem get_set_self (m : ProgressMap) (k : String) (v : JsVal)
    (h : k ≠ "__proto__" ∨ (m.get k).isSome = true) : (m.set k v).get k = some v := by
  unfold ProgressMap.set
  by_cases hown : (m.get k).isSome = true
  · simp only [hown, if_true]
    exact get_assign_self m k v hown
  · have hk : k ≠ "__proto__" := by
      rcases h with h | h
      · exact h
      · exact absurd h hown
    simp only [hown, hk, if_false, Bool.false_eq_true]
    exact get_define_self m k v (by simpa using hown)

theorem get_set_other (m : ProgressMap) (k : String) (v : JsVal) (j : String) (h : j ≠ k) :
    (m.set k v).get j = m.get j := by
  unfold ProgressMap.set
  by_cases hown : (m.get k).isSome = true
  · simp only [hown, if_true]
    exact get_assign_other m k v j h
  · by_cases hk : k = "__proto__"
    · rw [if_neg hown, if_pos hk]
    · simp only [hown, hk, if_false, Bool.false_eq_true]
      exact get_define_other m k v j h

theorem mem_assign (m : ProgressMap) (k : String) (v : JsVal) (kv : String × JsVal)
    (h : kv ∈ m.assign k v) : kv ∈ m ∨ kv.2 = v := by
  induction m with
  | nil => simp [ProgressMap.assign] at h
  | cons x rest ih =>
    obtain ⟨k', w⟩ := x
    by_cases hk : k' = k
    · simp only [ProgressMap.assign, hk, beq_self_eq_true, if_true, List.mem_cons] at h
      rcases h with h | h
      · right; rw [h]
      · left; exact List.mem_cons_of_mem _ h
    · have hb : (k' == k) = false := beq_false_of_ne hk
      simp only [ProgressMap.assign, hb, Bool.false_eq_true, if_false, List.mem_cons] at h
      rcases h with h | h
      · left; exact List.mem_cons.mpr (Or.inl h)
      · rcases ih h with h1 | h1
        · left; exact List.mem_cons_of_mem _ h1
        · right; exact h1

theorem length_assign (m : ProgressMap) (k : String) (v : JsVal) :
    (m.assign k v).length = m.length := by
  induction m with
  | nil => rfl
  | cons x rest ih =>
    obtain ⟨k', w⟩ := x
    by_cases hk : k' = k
    · simp [ProgressMap.assign, hk]
    · have hb : (k' == k) = false := beq_false_of_ne hk
      simp [ProgressMap.assign, hb, ih]

theorem define_perm (m : ProgressMap) (k : String) (v : JsVal) :
    (m.define k v).Perm ((k, v) :: m) := by
  unfold ProgressMap.define
  cases arrayIndex k with
  | some n => exact insertIndex_perm n k v m
  | none => exact List.perm_append_comm

/-! ## Looking up elements -/

theorem find_hideChapters (dom : List Element) (id : String) :
    (hideChapters dom).find? (fun e => e.id == id)
      = (dom.find? (fun e => e.id == id)).map
          (fun ch => if ch.isChapter then { ch with active := false } else ch) := by
  induction dom with
  | nil => rfl
  | cons e rest ih =>
    unfold hideChapters at ih ⊢
    rw [List.map_cons, List.find?_cons, List.find?_cons, ih]
    by_cases h : e.id = id
    · by_cases hc : e.isChapter <;> simp [h, hc]
    · have hb : (e.id == id) = false := beq_false_of_ne h
      by_cases hc : e.isChapter <;> simp [hb, hc]

theorem getElementById_hideChapters (dom : List Element) (id : String) :
    getElementById (hideChapters dom) id
      = (getElementById dom id).map
          (fun ch => if ch.isChapter then { ch with active := false } else ch) := by
  unfold getElementById
  by_cases h : id = ""
  · simp [h]
  · simp only [h, if_false]
    exact find_hideChapters dom id

theorem getElementById_hideChapters_none (dom : List Element) (id : String) :
    getElementById (hideChapters dom) id = none ↔ getElementById dom id = none := by
  rw [getElementById_hideChapters]; simp

/-- A chapter that is not found: only the `active` markers are touched. -/
theorem showChapter_not_found (w : Page) (id : String) (h : getElementById w.dom id = none) :
    showChapter w id = { w with dom := hideChapters w.dom } := by
  have h' := (getElementById_hideChapters_none w.dom id).mpr h
  simp [showChapter, h']

/-- A chapter that is found: the record after the call, field by field. -/
theorem showChapter_found (w : Page) (id : String) (h : getElementById w.dom id ≠ none) :
    (showChapter w id).state
        = { w.state with currentChapter := id, progress := w.state.progress.set id (.bool true) }
      ∧ (showChapter w id).dom = activate (hideChapters w.dom) id
      ∧ (showChapter w id).storage = some (showChapter w id).state.save
      ∧ (showChapter w id).progressPercent
          = percentOf (readChapters (w.state.progress.set id (.bool true))) 13 := by
  have h' : getElementById (hideChapters w.dom) id ≠ none := by
    rw [Ne, getElementById_hideChapters_none]; exact h
  obtain ⟨e, he⟩ := Option.ne_none_iff_exists'.mp h'
  simp [showChapter, he, updateProgress, updateNavButtons, Page.saved, chapterOrder]

/-! ## The active marker -/

theorem find_activate (dom : List Element) (id : String) :
    (activate dom id).find? (fun e => e.id == id)
      = (dom.find? (fun e => e.id == id)).map (fun e => { e with active := true }) := by
  induction dom with
  | nil => rfl
  | cons e rest ih =>
    by_cases h : e.id = id
    · simp [activate, h]
    · have hb : (e.id == id) = false := beq_false_of_ne h
      simp only [activate, hb, Bool.false_eq_true, if_false, List.find?_cons, ih]

theorem getElementById_activate (dom : List Element) (id : String) :
    getElementById (activate dom id) id
      = (getElementById dom id).map (fun e => { e with active := true }) := by
  unfold getElementById
  by_cases h : id = ""
  · simp [h]
  · simp only [h, if_false]
    exact find_activate dom id

theorem mem_activate (dom : List Element) (id : String) (e : Element)
    (he : e ∈ activate dom id) : e ∈ dom ∨ e.id = id := by
  induction dom with
  | nil => simp [activate] at he
  | cons d rest ih =>
    by_cases h : d.id = id
    · simp only [activate, h, beq_self_eq_true, if_true, List.mem_cons] at he
      rcases he with he | he
      · right; rw [he]
      · left; exact List.mem_cons_of_mem _ he
    · have hb : (d.id == id) = false := beq_false_of_ne h
      simp only [activate, hb, Bool.false_eq_true, if_false, List.mem_cons] at he
      rcases he with he | he
      · left; exact List.mem_cons.mpr (Or.inl he)
      · rcases ih he with h1 | h1
        · left; exact List.mem_cons_of_mem _ h1
        · right; exact h1

theorem inactive_of_mem_hideChapters (dom : List Element) (e : Element)
    (he : e ∈ hideChapters dom) (hc : e.isChapter = true) : e.active = false := by
  unfold hideChapters at he
  obtain ⟨d, _, hd⟩ := List.mem_map.mp he
  by_cases hdc : d.isChapter = true
  · simp only [hdc, if_true] at hd
    rw [← hd]
  · simp only [hdc] at hd
    rw [← hd] at hc
    exact absurd hc hdc

/-! ## Navigation -/

/-- C5, as amended: for every chapter id that is not found in the document,
`showChapter` leaves the whole reader state (so `currentChapter` and the progress
map), the persisted snapshot, the table of contents, the chapter label, the
navigation buttons and the progress display unchanged. -/
theorem showChapter_unknown_id_keeps_state (w : Page) (id : String)
    (h : getElementById w.dom id = none) :
    (showChapter w id).state = w.state
      ∧ (showChapter w id).storage = w.storage
      ∧ (showChapter w id).tocItems = w.tocItems
      ∧ (showChapter w id).currentChapterLabel = w.currentChapterLabel
      ∧ (showChapter w id).prevDisabled = w.prevDisabled
      ∧ (showChapter w id).nextDisabled = w.nextDisabled
      ∧ (showChapter w id).progressFill = w.progressFill
      ∧ (showChapter w id).progressPercent = w.progressPercent := by
  rw [showChapter_not_found w id h]
  exact ⟨rfl, rfl, rfl, rfl, rfl, rfl, rfl, rfl⟩

theorem showChapter_unknown_id_keeps_state_witness :
    getElementById samplePage.dom "missing" = none
      ∧ (showChapter samplePage "missing").state = samplePage.state
      ∧ (showChapter samplePage "missing").storage = samplePage.storage :=
  ⟨by decide,
   (showChapter_unknown_id_keeps_state samplePage "missing" (by decide)).1,
   (showChapter_unknown_id_keeps_state samplePage "missing" (by decide)).2.1⟩

/-- C5, as stated, fails twice: an id outside `chapterOrder` that the document
holds is navigated to, and an id the document does not hold still removes the
`active` marker from the chapter on show. -/
theorem showChapter_outside_order_not_noop :
    ("appendix" ∉ chapterOrder
        ∧ (showChapter samplePage "appendix").state.currentChapter = "appendix"
        ∧ samplePage.state.currentChapter = "intro")
      ∧ ("missing" ∉ chapterOrder
        ∧ getElementById samplePage.dom "missing" = none
        ∧ activeChapters samplePage.dom = ["intro"]
        ∧ activeChapters (showChapter samplePage "missing").dom = []) := by
  decide

/-- C6, as amended: for every chapter id present in the document, other than
`__proto__` when the progress map has no own entry of that name, `showChapter` sets
`currentChapter` to the id, sets its progress entry to `true` and leaves every
other entry, the font size, theme, bookmarks and highlights as they were, and the
element with that id is the only chapter carrying `active`; from `intro` with an
empty progress map, `showChapter "ch1"` gives `ch1`, `{ch1: true}` and 8 percent. -/
theorem showChapter_present_chapter (w : Page) (id : String)
    (h : getElementById w.dom id ≠ none)
    (hkey : id ≠ "__proto__" ∨ (w.state.progress.get id).isSome = true) :
    ((showChapter w id).state.currentChapter = id
      ∧ (showChapter w id).state.progress.get id = some (.bool true)
      ∧ (∀ k, k ≠ id → (showChapter w id).state.progress.get k = w.state.progress.get k)
      ∧ (showChapter w id).state.fontSize = w.state.fontSize
      ∧ (showChapter w id).state.theme = w.state.theme
      ∧ (showChapter w id).state.bookmarks = w.state.bookmarks
      ∧ (showChapter w id).state.highlights = w.state.highlights
      ∧ (getElementById (showChapter w id).dom id).map Element.active = some true
      ∧ (∀ e ∈ (showChapter w id).dom, e.isChapter = true → e.active = true → e.id = id))
    ∧ (w.state.currentChapter = "intro" → w.state.progress = [] → id = "ch1" →
        (showChapter w id).state.currentChapter = "ch1"
          ∧ (showChapter w id).state.progress = [("ch1", .bool true)]
          ∧ (showChapter w id).progressPercent = 8) := by
  obtain ⟨hst, hdom, -, hpct⟩ := showChapter_found w id h
  refine ⟨⟨?_, ?_, ?_, ?_, ?_, ?_, ?_, ?_, ?_⟩, ?_⟩
  · rw [hst]
  · rw [hst]; exact get_set_self _ _ _ hkey
  · intro k hk; rw [hst]; exact get_set_other _ _ _ _ hk
  · rw [hst]
  · rw [hst]
  · rw [hst]
  · rw [hst]
  · rw [hdom, getElementById_activate, getElementById_hideChapters]
    obtain ⟨e, he⟩ := Option.ne_none_iff_exists'.mp h
    simp [he]
  · intro e he hc ha
    rw [hdom] at he
    rcases mem_activate _ _ _ he with h1 | h1
    · rw [inactive_of_mem_hideChapters _ _ h1 hc] at ha
      exact absurd ha (by decide)
    · exact h1
  · intro _ hp hid
    subst hid
    have hset : ProgressMap.set [] "ch1" (.bool true) = [("ch1", .bool true)] := by decide
    rw [hst, hpct, hp, hset]
    exact ⟨rfl, rfl, by decide⟩

theorem showChapter_present_chapter_witness :
    getElementById samplePage.dom "ch1" ≠ none
      ∧ "ch1" ≠ "__proto__"
      ∧ (showChapter samplePage "ch1").state.currentChapter = "ch1"
      ∧ (showChapter samplePage "ch1").state.progress = [("ch1", .bool true)]
      ∧ (showChapter samplePage "ch1").progressPercent = 8 :=
  ⟨by decide, by decide,
   (showChapter_present_chapter samplePage "ch1" (by decide) (Or.inl (by decide))).2
     rfl rfl rfl⟩

/-- C6, as stated, fails for a chapter element whose id is `__proto__`: the write
`progress['__proto__'] = true` creates no entry, so after `showChapter` the progress
map is still empty and the percent is 0. -/
theorem showChapter_proto_not_marked :
    getElementById protoPage.dom "__proto__" ≠ none
      ∧ (showChapter protoPage "__proto__").state.currentChapter = "__proto__"
      ∧ (showChapter protoPage "__proto__").state.progress = []
      ∧ (showChapter protoPage "__proto__").state.progress.get "__proto__" ≠ some (.bool true)
      ∧ (showChapter protoPage "__proto__").progressPercent = 0 := by
  decide

/-! ## Previous and next -/

theorem jsIndexOf_chapterOrder (i : Nat) (c : String) (h : chapterOrder[i]? = some c) :
    jsIndexOf chapterOrder c = i := by
  have hi : i < 13 := by
    by_contra hge
    have hlen : chapterOrder.length = 13 := rfl
    have : chapterOrder[i]? = none := List.getElem?_eq_none (by rw [hlen]; omega)
    rw [this] at h
    exact absurd h (by simp)
  interval_cases i <;> simp [chapterOrder] at h <;> subst h <;> decide

theorem showChapter_currentChapter (w : Page) (id : String)
    (h : getElementById w.dom id ≠ none) : (showChapter w id).state.currentChapter = id := by
  rw [(showChapter_found w id h).1]

/-- C10, as amended: for every `currentChapter` that is in `chapterOrder`, after
`updateNavButtons` the prev button is disabled iff the chapter is first and the next
button is disabled iff it is last; for a `currentChapter` outside `chapterOrder`
(index `-1`) the prev button is disabled and the next button is enabled; and for
every `currentChapter`, on a document that holds every chapter of `chapterOrder`,
the prev handler does nothing at index `0` or `-1` and otherwise moves to the
chapter one index down, the next handler does nothing at the last index and
otherwise moves to the chapter one index up (from `-1` to the first chapter). -/
theorem nav_buttons_and_handlers (w : Page) :
    (w.state.currentChapter ∈ chapterOrder →
        ((updateNavButtons w).prevDisabled = true
            ↔ chapterOrder.head? = some w.state.currentChapter)
        ∧ ((updateNavButtons w).nextDisabled = true
            ↔ chapterOrder.getLast? = some w.state.currentChapter))
      ∧ (w.state.currentChapter ∉ chapterOrder →
          jsIndexOf chapterOrder w.state.currentChapter = -1
            ∧ (updateNavButtons w).prevDisabled = true
            ∧ (updateNavButtons w).nextDisabled = false)
      ∧ ((∀ c ∈ chapterOrder, getElementById w.dom c ≠ none) →
          (if jsIndexOf chapterOrder w.state.currentChapter ≤ 0 then prevBtnClick w = w
            else
              some (prevBtnClick w).state.currentChapter
                  = chapterOrder[(jsIndexOf chapterOrder w.state.currentChapter - 1).toNat]?
                ∧ jsIndexOf chapterOrder (prevBtnClick w).state.currentChapter
                  = jsIndexOf chapterOrder w.state.currentChapter - 1)
          ∧ (if jsIndexOf chapterOrder w.state.currentChapter ≥ 12 then nextBtnClick w = w
            else
              some (nextBtnClick w).state.currentChapter
                  = chapterOrder[(jsIndexOf chapterOrder w.state.currentChapter + 1).toNat]?
                ∧ jsIndexOf chapterOrder (nextBtnClick w).state.currentChapter
                  = jsIndexOf chapterOrder w.state.currentChapter + 1)) := by
  have hlen : chapterOrder.length = 13 := rfl
  refine ⟨?_, ?_, ?_⟩
  · intro hmem
    have hp : (updateNavButtons w).prevDisabled
        = decide (jsIndexOf chapterOrder w.state.currentChapter ≤ 0) := rfl
    have hn : (updateNavButtons w).nextDisabled
        = decide (jsIndexOf chapterOrder w.state.currentChapter
            ≥ (chapterOrder.length : Int) - 1) := rfl
    rw [hp, hn]
    generalize w.state.currentChapter = c at hmem ⊢
    simp only [chapterOrder, List.mem_cons, List.mem_singleton, List.not_mem_nil, or_false]
      at hmem
    rcases hmem with h | h | h | h | h | h | h | h | h | h | h | h | h <;> subst h <;> decide
  · intro hmem
    have hidx : jsIndexOf chapterOrder w.state.currentChapter = -1 := by
      simp [jsIndexOf, hmem]
    refine ⟨hidx, ?_⟩
    simp [updateNavButtons, hidx, hlen]
  · intro hdoc
    by_cases hmem : w.state.currentChapter ∈ chapterOrder
    · obtain ⟨i, hi⟩ := List.getElem?_of_mem hmem
      have hidx := jsIndexOf_chapterOrder i _ hi
      have hlt : i < 13 := by
        by_contra hge
        have : chapterOrder[i]? = none := List.getElem?_eq_none (by rw [hlen]; omega)
        rw [this] at hi
        exact absurd hi (by simp)
      rw [hidx]
      constructor
      · by_cases h0 : i = 0
        · simp [h0, prevBtnClick, hidx]
        · have hpos : (i : Int) > 0 := by omega
          have hnle : ¬ ((i : Int) ≤ 0) := by omega
          have hb : i - 1 < chapterOrder.length := by rw [hlen]; omega
          have hc : chapterOrder[i - 1]? = some chapterOrder[i - 1] :=
            List.getElem?_eq_getElem hb
          have hnat : ((i : Int) - 1).toNat = i - 1 := by omega
          have hcmem : chapterOrder[i - 1] ∈ chapterOrder := List.getElem?_mem hc
          have hcur : (prevBtnClick w).state.currentChapter = chapterOrder[i - 1] := by
            simp only [prevBtnClick, hidx, hpos, if_true, hnat, hc]
            exact showChapter_currentChapter w _ (hdoc _ hcmem)
          rw [if_neg hnle, hcur, hnat, jsIndexOf_chapterOrder (i - 1) _ hc]
          exact ⟨hc.symm, by omega⟩
      · by_cases h12 : i = 12
        · simp [h12, nextBtnClick, hidx, hlen]
        · have hless : (i : Int) < (chapterOrder.length : Int) - 1 := by
            rw [hlen]; push_cast; omega
          have hnge : ¬ ((i : Int) ≥ 12) := by omega
          have hb : i + 1 < chapterOrder.length := by rw [hlen]; omega
          have hc : chapterOrder[i + 1]? = some chapterOrder[i + 1] :=
            List.getElem?_eq_getElem hb
          have hnat : ((i : Int) + 1).toNat = i + 1 := by omega
          have hcmem : chapterOrder[i + 1] ∈ chapterOrder := List.getElem?_mem hc
          have hcur : (nextBtnClick w).state.currentChapter = chapterOrder[i + 1] := by
            simp only [nextBtnClick, hidx, hless, if_true, hnat, hc]
            exact showChapter_currentChapter w _ (hdoc _ hcmem)
          rw [if_neg hnge, hcur, hnat, jsIndexOf_chapterOrder (i + 1) _ hc]
          exact ⟨hc.symm, by push_cast; rfl⟩
    · have hidx : jsIndexOf chapterOrder w.state.currentChapter = -1 := by
        simp [jsIndexOf, hmem]
      have hintro : "intro" ∈ chapterOrder := by decide
      have hcur : (nextBtnClick w).state.currentChapter = "intro" := by
        have hless : (-1 : Int) < (chapterOrder.length : Int) - 1 := by rw [hlen]; decide
        have h0 : chapterOrder[((-1 : Int) + 1).toNat]? = some "intro" := by decide
        simp only [nextBtnClick, hidx, hless, if_true, h0]
        exact showChapter_currentChapter w _ (hdoc _ hintro)
      rw [hidx]
      constructor
      · simp [prevBtnClick, hidx]
      · rw [if_neg (by decide), hcur]
        exact ⟨by decide, by decide⟩

theorem nav_buttons_and_handlers_witness :
    ((showChapter samplePage "ch1").state.currentChapter ∈ chapterOrder
      ∧ ((updateNavButtons (showChapter samplePage "ch1")).prevDisabled = true
          ↔ chapterOrder.head? = some (showChapter samplePage "ch1").state.currentChapter)
      ∧ ((updateNavButtons (showChapter samplePage "ch1")).nextDisabled = true
          ↔ chapterOrder.getLast? = some (showChapter samplePage "ch1").state.currentChapter))
      ∧ (appendixPage.state.currentChapter ∉ chapterOrder
        ∧ (updateNavButtons appendixPage).nextDisabled = false)
      ∧ ((∀ c ∈ chapterOrder, getElementById (showChapter samplePage "ch1").dom c ≠ none)
        ∧ jsIndexOf chapterOrder (prevBtnClick (showChapter samplePage "ch1")).state.currentChapter
            = 0
        ∧ jsIndexOf chapterOrder (nextBtnClick (showChapter samplePage "ch1")).state.currentChapter
            = 2)
      ∧ ((∀ c ∈ chapterOrder, getElementById appendixPage.dom c ≠ none)
        ∧ prevBtnClick appendixPage = appendixPage
        ∧ jsIndexOf chapterOrder (nextBtnClick appendixPage).state.currentChapter = 0) :=
  ⟨⟨by decide,
    ((nav_buttons_and_handlers (showChapter samplePage "ch1")).1 (by decide)).1,
    ((nav_buttons_and_handlers (showChapter samplePage "ch1")).1 (by decide)).2⟩,
   ⟨by decide, ((nav_buttons_and_handlers appendixPage).2.1 (by decide)).2.2⟩,
   ⟨by decide,
    (((nav_buttons_and_handlers (showChapter samplePage "ch1")).2.2 (by decide)).1).2,
    (((nav_buttons_and_handlers (showChapter samplePage "ch1")).2.2 (by decide)).2).2⟩,
   ⟨by decide,
    ((nav_buttons_and_handlers appendixPage).2.2 (by decide)).1,
    (((nav_buttons_and_handlers appendixPage).2.2 (by decide)).2).2⟩⟩

/-- C10, as stated, fails for a `currentChapter` outside `chapterOrder`: after the
reader opens the appendix the prev button is disabled although the appendix is not
at the first position. -/
theorem updateNavButtons_outside_order :
    appendixPage.state.currentChapter = "appendix"
      ∧ ¬ ((updateNavButtons appendixPage).prevDisabled = true
            ↔ chapterOrder.head? = some appendixPage.state.currentChapter) := by
  decide

/-! ## Font size -/

/-- Repeated calls of `adjustFontSize`, one for each delta. -/
theorem adjustFontSize_foldl_upper (ds : List Int) (hds : ∀ d ∈ ds, 0 ≤ d) (w : Page)
    (h : w.state.fontSize = 24) : (ds.foldl adjustFontSize w).state.fontSize = 24 := by
  induction ds generalizing w with
  | nil => exact h
  | cons d rest ih =>
    have hd : 0 ≤ d := hds d (List.mem_cons_self _ _)
    apply ih (fun e he => hds e (List.mem_cons_of_mem _ he))
    show max 14 (min 24 (w.state.fontSize + d)) = 24
    rw [h]; omega

theorem adjustFontSize_foldl_lower (ds : List Int) (hds : ∀ d ∈ ds, d ≤ 0) (w : Page)
    (h : w.state.fontSize = 14) : (ds.foldl adjustFontSize w).state.fontSize = 14 := by
  induction ds generalizing w with
  | nil => exact h
  | cons d rest ih =>
    have hd : d ≤ 0 := hds d (List.mem_cons_self _ _)
    apply ih (fun e he => hds e (List.mem_cons_of_mem _ he))
    show max 14 (min 24 (w.state.fontSize + d)) = 14
    rw [h]; omega

/-- C8: for every integer font size and delta, `adjustFontSize` gives
`max 14 (min 24 (fontSize + delta))`, which lies in `[14, 24]`, and changes no other
field of the reader state; from 24 any number of calls with non-negative deltas
stays at 24, and from 14 any number of calls with non-positive deltas stays at 14. -/
theorem adjustFontSize_clamp (w : Page) (delta : Int) :
    (adjustFontSize w delta).state.fontSize = max 14 (min 24 (w.state.fontSize + delta))
      ∧ 14 ≤ (adjustFontSize w delta).state.fontSize
      ∧ (adjustFontSize w delta).state.fontSize ≤ 24
      ∧ (adjustFontSize w delta).state
          = { w.state with fontSize := (adjustFontSize w delta).state.fontSize }
      ∧ (∀ ds : List Int, w.state.fontSize = 24 → (∀ d ∈ ds, 0 ≤ d) →
          (ds.foldl adjustFontSize w).state.fontSize = 24)
      ∧ (∀ ds : List Int, w.state.fontSize = 14 → (∀ d ∈ ds, d ≤ 0) →
          (ds.foldl adjustFontSize w).state.fontSize = 14) := by
  have hfs : (adjustFontSize w delta).state.fontSize
      = max 14 (min 24 (w.state.fontSize + delta)) := rfl
  refine ⟨hfs, ?_, ?_, rfl, ?_, ?_⟩
  · rw [hfs]; omega
  · rw [hfs]; omega
  · intro ds h hds; exact adjustFontSize_foldl_upper ds hds w h
  · intro ds h hds; exact adjustFontSize_foldl_lower ds hds w h

theorem adjustFontSize_clamp_witness :
    (adjustFontSize (adjustFontSize (adjustFontSize samplePage 2) 2) 2).state.fontSize = 24
      ∧ ([2, 0, 5].foldl adjustFontSize
          (adjustFontSize (adjustFontSize (adjustFontSize samplePage 2) 2) 2)).state.fontSize = 24
      ∧ (adjustFontSize (adjustFontSize samplePage (-2)) (-2)).state.fontSize = 14
      ∧ ([-2, 0, -7].foldl adjustFontSize
          (adjustFontSize (adjustFontSize samplePage (-2)) (-2))).state.fontSize = 14 :=
  ⟨by decide,
   (adjustFontSize_clamp (adjustFontSize (adjustFontSize (adjustFontSize samplePage 2) 2) 2) 0).2.2.2.2.1
     [2, 0, 5] (by decide) (by decide),
   by decide,
   (adjustFontSize_clamp (adjustFontSize (adjustFontSize samplePage (-2)) (-2)) 0).2.2.2.2.2
     [-2, 0, -7] (by decide) (by decide)⟩

/-! ## Highlights -/

/-- C7: with text `t` selected, `highlightSelection c` appends exactly one record
after the earlier highlights; the record carries the current chapter, the colour
`c`, `fullText = t`, and as `text` either `t` itself (at most 50 code units) or its
first 50 code units followed by `...`, never more than 53 code units. -/
theorem highlightSelection_appends (w : Page) (t : JsText) (c today : String)
    (hsel : w.selectedRange = some t) :
    ∃ h : Highlight,
      (highlightSelection w c today).state.highlights = w.state.highlights ++ [h]
        ∧ h.chapter = w.state.currentChapter
        ∧ h.color = c
        ∧ h.fullText = t
        ∧ (t.length ≤ 50 → h.text = t)
        ∧ (50 < t.length → h.text = t.take 50 ++ ellipsis)
        ∧ h.text.length ≤ 53 := by
  refine ⟨{ chapter := w.state.currentChapter
            text := t.take 50 ++ (if t.length > 50 then ellipsis else [])
            fullText := t, color := c, date := today }, ?_, rfl, rfl, rfl, ?_, ?_, ?_⟩
  · simp [highlightSelection, hsel, Page.saved]
  · intro hle
    have : ¬ t.length > 50 := by omega
    simp [this, List.take_of_length_le hle]
  · intro hlt
    simp [hlt]
  · by_cases hlt : t.length > 50
    · simp [hlt, ellipsis]
    · simp [hlt]

theorem highlightSelection_appends_witness :
    selectionPage.selectedRange = some (List.replicate 60 97)
      ∧ ∃ h : Highlight,
        (highlightSelection selectionPage "yellow" "1/2/2025").state.highlights
            = selectionPage.state.highlights ++ [h]
          ∧ h.chapter = "ch2"
          ∧ h.color = "yellow"
          ∧ h.fullText = List.replicate 60 97
          ∧ h.text = List.replicate 50 97 ++ [46, 46, 46] := by
  refine ⟨rfl, ?_⟩
  obtain ⟨h, h1, h2, h3, h4, -, h6, -⟩ :=
    highlightSelection_appends selectionPage (List.replicate 60 97) "yellow" "1/2/2025" rfl
  exact ⟨h, h1, h2.trans (by decide), h3, h4, (h6 (by decide)).trans (by decide)⟩

/-! ## Bookmarks -/

theorem findIdx_eraseIdx (p : Bookmark → Bool) (bs : List Bookmark) :
    match bs.findIdx? p with
    | some i => bs.eraseIdx i = bs.eraseP p
    | none => ∀ b ∈ bs, p b = false := by
  induction bs with
  | nil => simp
  | cons x xs ih =>
    by_cases hx : p x = true
    · simp [hx]
    · have hx' : p x = false := by simpa using hx
      rw [List.findIdx?_cons]
      simp only [hx', Bool.false_eq_true, if_false, List.findIdx?_start_succ]
      cases hfind : xs.findIdx? p with
      | none =>
        rw [hfind] at ih
        simpa [hx'] using ih
      | some i =>
        rw [hfind] at ih
        simp [hx', ih]

theorem findIndex_absent (bs : List Bookmark) (c : String)
    (h : ∀ b ∈ bs, b.chapter ≠ c) : findIndex bs c = -1 := by
  have : bs.findIdx? (fun b => b.chapter == c) = none := by
    rw [List.findIdx?_eq_none_iff]
    intro b hb
    exact beq_false_of_ne (h b hb)
  simp [findIndex, this]

theorem findIndex_present (bs : List Bookmark) (c : String)
    (h : ∃ b ∈ bs, b.chapter = c) :
    0 ≤ findIndex bs c
      ∧ bs.eraseIdx (findIndex bs c).toNat = bs.eraseP (fun b => b.chapter == c) := by
  have key := findIdx_eraseIdx (fun b => b.chapter == c) bs
  unfold findIndex
  cases hfind : bs.findIdx? (fun b => b.chapter == c) with
  | none =>
    rw [hfind] at key
    obtain ⟨b, hb, hc⟩ := h
    have := key b hb
    simp [hc] at this
  | some i =>
    rw [hfind] at key
    simp only [Int.toNat_ofNat]
    exact ⟨Int.ofNat_nonneg i, key⟩

theorem addBookmark_currentChapter (w : Page) (today : String) :
    (addBookmark w today).state.currentChapter = w.state.currentChapter
      ∧ (addBookmark w today).dom = w.dom := by
  unfold addBookmark
  by_cases h : findIndex w.state.bookmarks w.state.currentChapter ≥ 0 <;>
    simp [h, renderBookmarks, Page.saved]

/-- The toggle on a chapter without a bookmark: a record is appended. -/
theorem addBookmark_absent (w : Page) (today : String)
    (h : ∀ b ∈ w.state.bookmarks, b.chapter ≠ w.state.currentChapter) :
    (addBookmark w today).state.bookmarks
      = w.state.bookmarks ++ [⟨w.state.currentChapter, bookmarkTitle w, today⟩] := by
  have hidx := findIndex_absent _ _ h
  simp [addBookmark, hidx, renderBookmarks, Page.saved]

/-- The toggle on a bookmarked chapter: its first record is removed. -/
theorem addBookmark_present (w : Page) (today : String)
    (h : ∃ b ∈ w.state.bookmarks, b.chapter = w.state.currentChapter) :
    (addBookmark w today).state.bookmarks
      = w.state.bookmarks.eraseP (fun b => b.chapter == w.state.currentChapter) := by
  obtain ⟨hidx, herase⟩ := findIndex_present _ _ h
  simp [addBookmark, hidx, renderBookmarks, Page.saved, herase]

theorem eraseP_chapter_of_nodup (bs : List Bookmark) (c : String)
    (hnd : oneBookmarkPerChapter bs) :
    bs.eraseP (fun b => b.chapter == c) = bs.filter (fun b => b.chapter != c) := by
  induction bs with
  | nil => rfl
  | cons x xs ih =>
    unfold oneBookmarkPerChapter at hnd ih
    rw [List.map_cons, List.nodup_cons] at hnd
    by_cases hx : x.chapter = c
    · have hall : ∀ b ∈ xs, (b.chapter != c) = true := by
        intro b hb
        have : b.chapter ≠ c := by
          intro hbc
          exact hnd.1 (List.mem_map.mpr ⟨b, hb, hbc.trans hx.symm⟩)
        simpa using this
      simp [hx, List.filter_eq_self.mpr hall]
    · have hb : (x.chapter == c) = false := beq_false_of_ne hx
      simp [hb, hx, ih hnd.2]

theorem addBookmark_invariant (w : Page) (today : String)
    (hnd : oneBookmarkPerChapter w.state.bookmarks) :
    oneBookmarkPerChapter (addBookmark w today).state.bookmarks := by
  by_cases h : ∃ b ∈ w.state.bookmarks, b.chapter = w.state.currentChapter
  · rw [addBookmark_present w today h]
    exact List.Nodup.sublist ((List.eraseP_sublist _).map _) hnd
  · have h' : ∀ b ∈ w.state.bookmarks, b.chapter ≠ w.state.currentChapter := by
      intro b hb hc; exact h ⟨b, hb, hc⟩
    rw [addBookmark_absent w today h']
    unfold oneBookmarkPerChapter at hnd ⊢
    rw [List.map_append, List.nodup_append]
    refine ⟨hnd, by simp, ?_⟩
    intro a ha hb
    simp only [List.map_cons, List.map_nil, List.mem_singleton] at hb
    obtain ⟨b, hbm, hbc⟩ := List.mem_map.mp ha
    exact h' b hbm (hbc.trans hb)

theorem bookmarkTitle_addBookmark (w : Page) (today : String) :
    bookmarkTitle (addBookmark w today) = bookmarkTitle w := by
  unfold bookmarkTitle
  rw [(addBookmark_currentChapter w today).1, (addBookmark_currentChapter w today).2]

/-- C2, as amended: two calls of `addBookmark` in a row on the same chapter give
back the bookmarks list, same records in the same order, when the chapter was not
bookmarked beforehand; when it was (one bookmark per chapter), the list gets back
its length, the other records keep their order, and the record of the chapter is
replaced by a new one at the end, with the current title and date. -/
theorem addBookmark_twice (w : Page) (d1 d2 : String) :
    ((∀ b ∈ w.state.bookmarks, b.chapter ≠ w.state.currentChapter) →
        (addBookmark (addBookmark w d1) d2).state.bookmarks = w.state.bookmarks)
      ∧ ((∃ b ∈ w.state.bookmarks, b.chapter = w.state.currentChapter) →
          oneBookmarkPerChapter w.state.bookmarks →
          (addBookmark (addBookmark w d1) d2).state.bookmarks
              = w.state.bookmarks.filter (fun b => b.chapter != w.state.currentChapter)
                  ++ [⟨w.state.currentChapter, bookmarkTitle w, d2⟩]
            ∧ (addBookmark (addBookmark w d1) d2).state.bookmarks.length
                = w.state.bookmarks.length) := by
  have hcur := (addBookmark_currentChapter w d1).1
  constructor
  · intro habs
    have h1 := addBookmark_absent w d1 habs
    have hpres : ∃ b ∈ (addBookmark w d1).state.bookmarks,
        b.chapter = (addBookmark w d1).state.currentChapter := by
      rw [h1, hcur]
      exact ⟨⟨w.state.currentChapter, bookmarkTitle w, d1⟩, by simp, rfl⟩
    rw [addBookmark_present _ d2 hpres, h1, hcur]
    have hno : ∀ b ∈ w.state.bookmarks,
        ¬ (fun b : Bookmark => b.chapter == w.state.currentChapter) b = true := by
      intro b hb
      simpa using habs b hb
    rw [List.eraseP_append_right _ hno]
    simp
  · intro hpres hnd
    have h1 := addBookmark_present w d1 hpres
    rw [eraseP_chapter_of_nodup _ _ hnd] at h1
    have habs : ∀ b ∈ (addBookmark w d1).state.bookmarks,
        b.chapter ≠ (addBookmark w d1).state.currentChapter := by
      rw [h1, hcur]
      intro b hb
      simpa using (List.mem_filter.mp hb).2
    have h2 := addBookmark_absent _ d2 habs
    rw [h1, hcur, bookmarkTitle_addBookmark] at h2
    refine ⟨h2, ?_⟩
    rw [h2, List.length_append, ← eraseP_chapter_of_nodup _ _ hnd]
    obtain ⟨b, hb, hc⟩ := hpres
    have hlen := List.length_eraseP_of_mem (p := fun b => b.chapter == w.state.currentChapter)
      hb (by simp [hc])
    have hpos : 0 < w.state.bookmarks.length := List.length_pos_of_mem hb
    rw [hlen]
    simp only [List.length_cons, List.length_nil]
    omega

theorem addBookmark_twice_witness :
    ((∀ b ∈ samplePage.state.bookmarks, b.chapter ≠ samplePage.state.currentChapter)
        ∧ (addBookmark (addBookmark samplePage "1/2/2025") "1/3/2025").state.bookmarks
            = samplePage.state.bookmarks)
      ∧ ((∃ b ∈ bookmarkedPage.state.bookmarks,
            b.chapter = bookmarkedPage.state.currentChapter)
        ∧ oneBookmarkPerChapter bookmarkedPage.state.bookmarks
        ∧ (addBookmark (addBookmark bookmarkedPage "1/3/2025") "1/4/2025").state.bookmarks.length
            = bookmarkedPage.state.bookmarks.length) :=
  ⟨⟨by decide, (addBookmark_twice samplePage "1/2/2025" "1/3/2025").1 (by decide)⟩,
   by decide, by decide,
   ((addBookmark_twice bookmarkedPage "1/3/2025" "1/4/2025").2 (by decide) (by decide)).2⟩

/-- C2, as stated, fails when the chapter was bookmarked beforehand: with bookmarks
on `ch1` and `ch2` and `ch1` on show, two calls leave `ch2` first and a new record
for `ch1` last, even with the same title and date. -/
theorem toggle_twice_reorders :
    bookmarkedPage.state.currentChapter = "ch1"
      ∧ bookmarkedPage.state.bookmarks
          = [⟨"ch1", "ch1", "1/2/2025"⟩, ⟨"ch2", "ch2", "1/2/2025"⟩]
      ∧ (addBookmark (addBookmark bookmarkedPage "1/2/2025") "1/2/2025").state.bookmarks
          = [⟨"ch2", "ch2", "1/2/2025"⟩, ⟨"ch1", "ch1", "1/2/2025"⟩]
      ∧ (addBookmark (addBookmark bookmarkedPage "1/2/2025") "1/2/2025").state.bookmarks
          ≠ bookmarkedPage.state.bookmarks := by
  decide

theorem showChapter_bookmarks (w : Page) (id : String) :
    (showChapter w id).state.bookmarks = w.state.bookmarks := by
  by_cases h : getElementById w.dom id = none
  · rw [showChapter_not_found w id h]
  · rw [(showChapter_found w id h).1]

theorem step_bookmarks (w : Page) (ev : Event) :
    (∃ today, ev = .addBookmark today) ∨ (step w ev).state.bookmarks = w.state.bookmarks := by
  cases ev with
  | showChapter id => right; exact showChapter_bookmarks w id
  | scroll top offsetHeight innerHeight =>
    right
    simp only [step, scrollHandler]
    split <;> rfl
  | addBookmark today => left; exact ⟨today, rfl⟩
  | prevClick =>
    right
    simp only [step, prevBtnClick]
    split
    · split
      · exact showChapter_bookmarks w _
      · rfl
    · rfl
  | nextClick =>
    right
    simp only [step, nextBtnClick]
    split
    · split
      · exact showChapter_bookmarks w _
      · rfl
    · rfl
  | adjustFontSize delta => right; rfl
  | highlight color today =>
    right
    simp only [step, highlightSelection]
    split <;> rfl

theorem step_invariant (w : Page) (ev : Event)
    (hnd : oneBookmarkPerChapter w.state.bookmarks) :
    oneBookmarkPerChapter (step w ev).state.bookmarks := by
  rcases step_bookmarks w ev with ⟨today, rfl⟩ | h
  · exact addBookmark_invariant w today hnd
  · rw [h]; exact hnd

theorem run_invariant (evs : List Event) (w : Page)
    (hnd : oneBookmarkPerChapter w.state.bookmarks) :
    oneBookmarkPerChapter (run w evs).state.bookmarks := by
  induction evs generalizing w with
  | nil => exact hnd
  | cons ev rest ih => exact ih (step w ev) (step_invariant w ev hnd)

/-- C3: `addBookmark` preserves "no two bookmarks share a chapter" for every current
chapter, and the property holds in every state reached from an empty bookmarks list
by any sequence of handler calls (`addBookmark`, `showChapter` and the others). -/
theorem one_bookmark_per_chapter (w : Page) :
    (∀ today, oneBookmarkPerChapter w.state.bookmarks →
        oneBookmarkPerChapter (addBookmark w today).state.bookmarks)
      ∧ (w.state.bookmarks = [] →
          ∀ evs : List Event, oneBookmarkPerChapter (run w evs).state.bookmarks) := by
  constructor
  · intro today hnd; exact addBookmark_invariant w today hnd
  · intro hempty evs
    apply run_invariant
    rw [hempty]
    exact List.nodup_nil

theorem one_bookmark_per_chapter_witness :
    (oneBookmarkPerChapter bookmarkedPage.state.bookmarks
        ∧ oneBookmarkPerChapter (addBookmark bookmarkedPage "1/5/2025").state.bookmarks)
      ∧ (samplePage.state.bookmarks = []
        ∧ oneBookmarkPerChapter
            (run samplePage
              [.addBookmark "1/2/2025", .showChapter "ch3", .addBookmark "1/2/2025",
               .showChapter "intro", .addBookmark "1/3/2025"]).state.bookmarks) :=
  ⟨⟨by decide, (one_bookmark_per_chapter bookmarkedPage).1 "1/5/2025" (by decide)⟩,
   rfl, (one_bookmark_per_chapter samplePage).2 rfl _⟩

/-! ## Persistence -/

theorem map_toJSON_of_no_nan (m : ProgressMap) (h : ∀ kv ∈ m, kv.2 ≠ JsVal.nan) :
    m.map (fun kv => (kv.1, kv.2.toJSON)) = m := by
  induction m with
  | nil => rfl
  | cons kv rest ih =>
    have hkv : kv.2 ≠ JsVal.nan := h kv (List.mem_cons_self _ _)
    have hj : kv.2.toJSON = kv.2 := by
      cases hv : kv.2 with
      | nan => exact absurd hv hkv
      | bool b => rfl
      | num q => rfl
      | null => rfl
    rw [List.map_cons, ih (fun x hx => h x (List.mem_cons_of_mem _ hx)), hj]

theorem stalledPage_state :
    stalledPage.state = { progress := [("intro_scroll", .nan)] } := by
  have hcp : chapterProgress (-0) (600 - 600) = .nan := by norm_num [chapterProgress]
  have hget : getElementById samplePage.dom samplePage.state.currentChapter
      = some ⟨"intro", true, true, some "intro"⟩ := by decide
  simp only [stalledPage, scrollHandler, hget, hcp, Page.saved]
  decide

/-- C4, as amended: for every reader state whose progress map holds no `NaN`,
loading the snapshot written by `save` gives back the state on all six fields,
whatever the store held; loading a snapshot with a subset of the fields into the
default store overwrites the fields present and leaves each absent field at its
default; and with nothing stored `load` leaves the state unchanged. -/
theorem save_load_roundtrip (s d : ReaderState) :
    ((∀ kv ∈ s.progress, kv.2 ≠ JsVal.nan) → ReaderState.load d (some s.save) = s)
      ∧ (∀ snap : Snapshot,
          ReaderState.load {} (some snap)
            = { currentChapter := snap.currentChapter.getD "intro"
                fontSize := snap.fontSize.getD 18
                theme := snap.theme.getD "light"
                bookmarks := snap.bookmarks.getD []
                highlights := snap.highlights.getD []
                progress := snap.progress.getD [] })
      ∧ ReaderState.load s none = s := by
  refine ⟨?_, fun _ => rfl, rfl⟩
  intro hnan
  have hmap := map_toJSON_of_no_nan s.progress hnan
  cases s
  simp only [ReaderState.load, ReaderState.save, Option.getD_some] at hmap ⊢
  rw [hmap]

theorem save_load_roundtrip_witness :
    (∀ kv ∈ bookmarkedPage.state.progress, kv.2 ≠ JsVal.nan)
      ∧ ReaderState.load {} (some bookmarkedPage.state.save) = bookmarkedPage.state :=
  ⟨by decide, (save_load_roundtrip bookmarkedPage.state {}).1 (by decide)⟩

/-- C4, as stated, fails on a state the scroll handler produces: a `NaN` scroll
depth is written to storage as `null`, so the loaded progress map differs. -/
theorem save_load_loses_nan :
    stalledPage.state.progress = [("intro_scroll", .nan)]
      ∧ (ReaderState.load {} (some stalledPage.state.save)).progress
          = [("intro_scroll", .null)]
      ∧ ReaderState.load {} (some stalledPage.state.save) ≠ stalledPage.state := by
  rw [stalledPage_state]
  decide

/-! ## Progress -/

theorem updateProgress_percent (w : Page) :
    (updateProgress w).progressPercent
        = percentOf (readChapters (w.state.progress.set w.state.currentChapter (.bool true))) 13
      ∧ (updateProgress w).progressFill = (updateProgress w).progressPercent
      ∧ (updateProgress w).state.progress
          = w.state.progress.set w.state.currentChapter (.bool true) :=
  ⟨rfl, rfl, rfl⟩

theorem chapterProgress_half : chapterProgress (-(-300)) (1200 - 600) = .num 50 := by
  norm_num [chapterProgress]

theorem chapterProgress_top : chapterProgress (-0) (1200 - 600) = .num 0 := by
  norm_num [chapterProgress]

theorem scrolledPage_state :
    scrolledPage.state.currentChapter = "intro"
      ∧ scrolledPage.state.progress = [("intro", .bool true), ("intro_scroll", .num 50)] := by
  simp only [scrolledPage, run, List.foldl, step, scrollHandler, chapterProgress_half]
  decide

/-- C1 at a failing input: after `intro` is opened and scrolled half way, the
progress map holds one read flag and one scroll depth; `updateProgress` counts both
and shows 15 percent, where the read count of the specification gives 8. -/
theorem updateProgress_counts_scroll_depth :
    (updateProgress scrolledPage).state.progress
        = [("intro", .bool true), ("intro_scroll", .num 50)]
      ∧ (updateProgress scrolledPage).progressPercent = 15
      ∧ percentOf (readFlagCount (updateProgress scrolledPage).state.progress) 13 = 8 := by
  obtain ⟨hp, -, hs⟩ := updateProgress_percent scrolledPage
  rw [hp, hs, scrolledPage_state.1, scrolledPage_state.2]
  decide

/-- C9 at a failing input: once the scroll depth of `intro` goes back to zero the
count drops, and the percents of the three `updateProgress` calls are 8, 15, 8. -/
theorem percent_drops_after_scroll_back :
    percentTrace samplePage scrollBackEvents = [8, 15, 8]
      ∧ ¬ (percentTrace samplePage scrollBackEvents).Pairwise (fun a b => a ≤ b) := by
  have h : percentTrace samplePage scrollBackEvents = [8, 15, 8] := by
    simp only [scrollBackEvents, percentTrace, step, scrollHandler, chapterProgress_half,
      chapterProgress_top]
    decide
  rw [h]
  exact ⟨rfl, by decide⟩

/-! ## Progress maps that hold read flags only -/

theorem get_of_mem_keys (m : ProgressMap) (k : String) (hk : k ∈ m.keys) :
    ∃ kv ∈ m, m.get k = some kv.2 := by
  induction m with
  | nil => simp [ProgressMap.keys] at hk
  | cons x rest ih =>
    by_cases hx : x.1 = k
    · exact ⟨x, List.mem_cons_self _ _, by simp [ProgressMap.get, hx]⟩
    · have hb : (x.1 == k) = false := beq_false_of_ne hx
      have hk' : k ∈ ProgressMap.keys rest := by
        simp only [ProgressMap.keys, List.map_cons, List.mem_cons] at hk
        rcases hk with hk | hk
        · exact absurd hk.symm hx
        · exact hk
      obtain ⟨kv, hkv, hget⟩ := ih hk'
      refine ⟨kv, List.mem_cons_of_mem _ hkv, ?_⟩
      simpa [ProgressMap.get, List.find?_cons, hb] using hget

/-- On a progress map whose entries are all read flags `true`, the count of
`updateProgress` and the read count of the specification are both the number of
entries. -/
theorem readChapters_of_flags (m : ProgressMap) (h : ∀ kv ∈ m, kv.2 = JsVal.bool true) :
    readChapters m = m.length ∧ readFlagCount m = m.length := by
  constructor
  · unfold readChapters
    rw [List.filter_eq_self.mpr]
    · simp [ProgressMap.keys]
    · intro k hk
      obtain ⟨kv, hkv, hget⟩ := get_of_mem_keys m k hk
      rw [hget, h kv hkv]
      rfl
  · unfold readFlagCount
    rw [List.filter_eq_self.mpr]
    intro kv hkv
    simp [h kv hkv]

theorem set_flags (m : ProgressMap) (k : String) (h : ∀ kv ∈ m, kv.2 = JsVal.bool true) :
    (∀ kv ∈ m.set k (.bool true), kv.2 = JsVal.bool true)
      ∧ m.length ≤ (m.set k (.bool true)).length := by
  unfold ProgressMap.set
  by_cases hown : (m.get k).isSome = true
  · simp only [hown, if_true]
    refine ⟨?_, le_of_eq (length_assign m k _).symm⟩
    intro kv hkv
    rcases mem_assign m k _ kv hkv with h1 | h1
    · exact h kv h1
    · exact h1
  · by_cases hk : k = "__proto__"
    · rw [if_neg hown, if_pos hk]
      exact ⟨h, le_refl _⟩
    · rw [if_neg hown, if_neg hk]
      have hperm := define_perm m k (.bool true)
      refine ⟨?_, ?_⟩
      · intro kv hkv
        rcases List.mem_cons.mp (hperm.mem_iff.mp hkv) with h1 | h1
        · rw [h1]
        · exact h kv h1
      · rw [hperm.length_eq, List.length_cons]
        omega

/-- When the progress map holds read flags only, the percent shown by
`updateProgress` is the rounded share of the read count of the specification. -/
theorem updateProgress_percent_of_flags (w : Page)
    (h : ∀ kv ∈ w.state.progress, kv.2 = JsVal.bool true) :
    (updateProgress w).progressPercent
      = percentOf (readFlagCount (updateProgress w).state.progress) 13 := by
  obtain ⟨hp, -, hs⟩ := updateProgress_percent w
  obtain ⟨hall, -⟩ := set_flags w.state.progress w.state.currentChapter h
  rw [hp, hs, (readChapters_of_flags _ hall).1, (readChapters_of_flags _ hall).2]

/-- Without scroll events: along `showChapter` calls alone, from a progress map of
read flags, every percent is at least the one of the state before and the percents
are non-decreasing. -/
theorem percentTrace_showChapter_mono (ids : List String) (w : Page)
    (h : ∀ kv ∈ w.state.progress, kv.2 = JsVal.bool true) :
    (∀ p ∈ percentTrace w (ids.map Event.showChapter),
        percentOf w.state.progress.length 13 ≤ p)
      ∧ (percentTrace w (ids.map Event.showChapter)).Pairwise (fun a b => a ≤ b) := by
  induction ids generalizing w with
  | nil => simp [percentTrace]
  | cons id rest ih =>
    simp only [List.map_cons, percentTrace]
    by_cases hid : getElementById w.dom id = none
    · have hsame : (showChapter w id).state = w.state := by rw [showChapter_not_found w id hid]
      have ih' := ih (showChapter w id) (by rw [hsame]; exact h)
      rw [hsame] at ih'
      simpa [hid] using ih'
    · obtain ⟨hst, -, -, hpct⟩ := showChapter_found w id hid
      obtain ⟨hall, hlen⟩ := set_flags w.state.progress id h
      have hprog : (showChapter w id).state.progress = w.state.progress.set id (.bool true) := by
        rw [hst]
      obtain ⟨ih1, ih2⟩ := ih (showChapter w id) (by rw [hprog]; exact hall)
      have hsome : (getElementById w.dom id).isSome = true :=
        Option.isSome_iff_ne_none.mpr hid
      have hhead : (showChapter w id).progressPercent
          = percentOf (showChapter w id).state.progress.length 13 := by
        rw [hpct, hprog, (readChapters_of_flags _ hall).1]
      have hstep : percentOf w.state.progress.length 13
          ≤ percentOf (showChapter w id).state.progress.length 13 := by
        rw [hprog]; exact percentOf_mono 13 hlen
      simp only [hsome, if_true, List.singleton_append, List.mem_cons, List.pairwise_cons]
      refine ⟨?_, ?_, ih2⟩
      · intro p hp
        rcases hp with rfl | hp
        · rw [hhead]; exact hstep
        · exact le_trans hstep (ih1 p hp)
      · intro p hp
        rw [hhead]
        exact ih1 p hp

end ReaderJs
